import Mathlib

/-!
Verification development for the resume-analysis pipeline
(`src/services/pdfExtractionService.js`, `src/services/aiAnalysisService.js`,
`src/services/llmFactory.js`, `src/utils/analysisStorage.js`).

The JavaScript sources are shallowly embedded:
pure functions become Lean functions, JavaScript exceptions become `Except`,
JavaScript objects become association lists of `String × Json` whose property
lookup (`jsGet`) takes the LAST binding, so that spreading and assignment are
modelled by list append.  `JSON.parse` is embedded as a recursive-descent
parser returning `Option Json` (`none` models a thrown `SyntaxError`).
-/
namespace AIResumes

/-- JSON values as produced by the JavaScript runtime's `JSON.parse`.
A number is stored as a scaled decimal: `num m e` denotes `m * 10 ^ e`. -/
inductive Json where
  | null : Json
  | bool (b : Bool) : Json
  | num (m : Int) (e : Int) : Json
  | str (s : String) : Json
  | arr (elems : List Json) : Json
  | obj (fields : List (String × Json)) : Json

/-- A JavaScript object, as its ordered list of property bindings. -/
abbrev JsObj := List (String × Json)

/-- Property lookup.  The LAST binding for a key wins, so `a ++ b` models the
JavaScript spread `\x7b...a, ...b\x7d` and `o ++ [(k, v)]` models `o[k] = v`. -/
def jsGet (o : JsObj) (k : String) : Option Json :=
  match o with
  | [] => none
  | (k', v) :: rest =>
    match jsGet rest k with
    | some w => some w
    | none => if k' = k then some v else none

/-- Property assignment `o[k] = v`, extensionally under `jsGet`. -/
def jsSet (o : JsObj) (k : String) (v : Json) : JsObj :=
  o ++ [(k, v)]

/-- JavaScript truthiness of a JSON value
(`null`, `false`, `0` and `""` are falsy; objects and arrays are truthy). -/
def jsTruthy : Json → Bool
  | .null => false
  | .bool b => b
  | .num m _ => m != 0
  | .str s => s != ""
  | .arr _ => true
  | .obj _ => true

/-- Truthiness of a possibly-absent value (`undefined` is falsy). -/
def jsonTruthyOpt : Option Json → Bool
  | none => false
  | some v => jsTruthy v

/-- Truthiness of a JavaScript `string | null` value. -/
def strTruthy : Option String → Bool
  | none => false
  | some s => s != ""

/-! ## The JSON.parse embedding -/
/-- Whitespace accepted between JSON tokens (per the JSON grammar). -/
def isJsonWs (c : Char) : Bool :=
  c == ' ' || c == '\t' || c == '\n' || c == '\r'

def skipWs : List Char → List Char
  | [] => []
  | c :: cs => if isJsonWs c then skipWs cs else c :: cs

def parseHexDigit (c : Char) : Option Nat :=
  if c.isDigit then some (c.toNat - 48)
  else if 'a' ≤ c ∧ c ≤ 'f' then some (c.toNat - 97 + 10)
  else if 'A' ≤ c ∧ c ≤ 'F' then some (c.toNat - 65 + 10)
  else none

/-- Parse the body of a JSON string after the opening quote; returns the
decoded characters and the input remaining after the closing quote. -/
def parseStringBody : Nat → List Char → Option (List Char × List Char)
  | 0, _ => none
  | _ + 1, [] => none
  | fuel + 1, c :: cs =>
    if c == '"' then some ([], cs)
    else if c == '\\' then
      match cs with
      | [] => none
      | e :: cs' =>
        let esc : Option (Char × List Char) :=
          if e == '"' then some ('"', cs')
          else if e == '\\' then some ('\\', cs')
          else if e == '/' then some ('/', cs')
          else if e == 'b' then some ('\x08', cs')
          else if e == 'f' then some ('\x0c', cs')
          else if e == 'n' then some ('\n', cs')
          else if e == 'r' then some ('\r', cs')
          else if e == 't' then some ('\t', cs')
          else if e == 'u' then
            match cs' with
            | h1 :: h2 :: h3 :: h4 :: cs'' =>
              match parseHexDigit h1, parseHexDigit h2, parseHexDigit h3, parseHexDigit h4 with
              | some a, some b, some c2, some d =>
                some (Char.ofNat (((a * 16 + b) * 16 + c2) * 16 + d), cs'')
              | _, _, _, _ => none
            | _ => none
          else none
        match esc with
        | some (ch, rest) =>
          match parseStringBody fuel rest with
          | some (body, rest') => some (ch :: body, rest')
          | none => none
        | none => none
    else if c.toNat < 32 then none
    else
      match parseStringBody fuel cs with
      | some (body, rest) => some (c :: body, rest)
      | none => none

def digitsToNat (ds : List Char) : Nat :=
  ds.foldl (fun a c => a * 10 + (c.toNat - 48)) 0

/-- Optional fraction part `.digits` of a JSON number. -/
def parseFracPart : List Char → Option (List Char × List Char)
  | '.' :: r =>
    let ds := r.takeWhile Char.isDigit
    if ds.isEmpty then none else some (ds, r.dropWhile Char.isDigit)
  | cs => some ([], cs)

/-- Optional exponent part `(e|E)(+|-)?digits` of a JSON number. -/
def parseExpPart : List Char → Option (Int × List Char)
  | [] => some (0, [])
  | c :: r =>
    if c == 'e' || c == 'E' then
      let (sgn, r1) : Int × List Char :=
        match r with
        | '+' :: t => (1, t)
        | '-' :: t => (-1, t)
        | t => (1, t)
      let ds := r1.takeWhile Char.isDigit
      if ds.isEmpty then none
      else some (sgn * (digitsToNat ds : Int), r1.dropWhile Char.isDigit)
    else some (0, c :: r)

def parseNumber (cs : List Char) : Option (Json × List Char) :=
  let (neg, cs1) : Bool × List Char :=
    match cs with
    | '-' :: r => (true, r)
    | r => (false, r)
  let ints := cs1.takeWhile Char.isDigit
  let cs2 := cs1.dropWhile Char.isDigit
  if ints.isEmpty then none
  else if ints.length > 1 && ints.headD 'x' == '0' then none
  else
    match parseFracPart cs2 with
    | none => none
    | some (frac, cs3) =>
      match parseExpPart cs3 with
      | none => none
      | some (ex, cs4) =>
        let mant : Int := Int.ofNat (digitsToNat (ints ++ frac))
        let mant := if neg then -mant else mant
        some (.num mant (ex - Int.ofNat frac.length), cs4)

mutual

/-- Recursive-descent parser for a JSON value (leading whitespace allowed).
The fuel only forces termination; any fuel above the input length is enough. -/
def parseValue : Nat → List Char → Option (Json × List Char)
  | 0, _ => none
  | fuel + 1, cs =>
    match skipWs cs with
    | [] => none
    | '{' :: rest =>
      (match skipWs rest with
       | '}' :: rest1 => some (.obj [], rest1)
       | _ =>
         match parseObjectRest fuel rest with
         | some (fields, rest1) => some (.obj fields, rest1)
         | none => none)
    | '[' :: rest =>
      (match skipWs rest with
       | ']' :: rest1 => some (.arr [], rest1)
       | _ =>
         match parseArrayRest fuel rest with
         | some (elems, rest1) => some (.arr elems, rest1)
         | none => none)
    | '"' :: rest =>
      (match parseStringBody (rest.length + 1) rest with
       | some (body, rest1) => some (.str (String.mk body), rest1)
       | none => none)
    | 't' :: 'r' :: 'u' :: 'e' :: rest => some (.bool true, rest)
    | 'f' :: 'a' :: 'l' :: 's' :: 'e' :: rest => some (.bool false, rest)
    | 'n' :: 'u' :: 'l' :: 'l' :: rest => some (.null, rest)
    | other => parseNumber other

/-- Members of an object after `{` (at least one member). -/
def parseObjectRest : Nat → List Char → Option (List (String × Json) × List Char)
  | 0, _ => none
  | fuel + 1, cs =>
    match skipWs cs with
    | '"' :: rest =>
      (match parseStringBody (rest.length + 1) rest with
       | none => none
       | some (key, rest1) =>
         match skipWs rest1 with
         | ':' :: rest2 =>
           (match parseValue fuel rest2 with
            | none => none
            | some (v, rest3) =>
              match skipWs rest3 with
              | ',' :: rest4 =>
                (match parseObjectRest fuel rest4 with
                 | some (fields, rest5) => some ((String.mk key, v) :: fields, rest5)
                 | none => none)
              | '}' :: rest4 => some ([(String.mk key, v)], rest4)
              | _ => none)
         | _ => none)
    | _ => none

/-- Elements of an array after `[` (at least one element). -/
def parseArrayRest : Nat → List Char → Option (List Json × List Char)
  | 0, _ => none
  | fuel + 1, cs =>
    match parseValue fuel cs with
    | none => none
    | some (v, rest) =>
      match skipWs rest with
      | ',' :: rest1 =>
        (match parseArrayRest fuel rest1 with
         | some (vs, rest2) => some (v :: vs, rest2)
         | none => none)
      | ']' :: rest1 => some ([v], rest1)
      | _ => none

end

/-- Embedding of `JSON.parse`: `none` models a thrown `SyntaxError`. -/
def jsonParse (s : String) : Option Json :=
  match parseValue (s.length + 1) s.toList with
  | some (v, rest) => if (skipWs rest).isEmpty then some v else none
  | none => none

/-! ## Response normalizer (`pdfExtractionService.js`)

`extractFencedJson`, `extractBraceChunk`, `sanitizeJsonLike`,
`tryParseWithSanitization` and `parseExtractionResponse` are embedded below.
Each JavaScript regular-expression `replace` is translated by a direct
left-to-right scan with the same match semantics (the character classes
involved never overlap their terminators, so the regexes are deterministic). -/
/-- The backquote character that delimits markdown code fences. -/
def fenceChar : Char := Char.ofNat 96

/-- The single-quote character. -/
def squote : Char := Char.ofNat 39

/-- Whitespace matched by the JavaScript regex class `\s` (common cases). -/
def isJsWs (c : Char) : Bool :=
  c == ' ' || c == '\t' || c == '\n' || c == '\r' || c == '\x0b' || c == '\x0c'

/-- JavaScript `String.prototype.trim`. -/
def jsTrim (s : String) : String :=
  String.mk (((s.toList.dropWhile isJsWs).reverse.dropWhile isJsWs).reverse)

/-- Does the input start with a three-backquote fence? -/
def isFenceAt : List Char → Bool
  | a :: b :: c :: _ => a == fenceChar && b == fenceChar && c == fenceChar
  | _ => false

/-- First step of `sanitizeJsonLike`: `.replace(/^```[\s\S]*?\n/, '')` —
if the text starts with a fence and a newline follows somewhere, drop
everything up to and including the first newline (the lazy body stops there);
otherwise there is no match and the text is unchanged. -/
def stripLeadingFence (cs : List Char) : List Char :=
  if isFenceAt cs then
    let rest := cs.drop 3
    if rest.contains '\n' then (rest.dropWhile (fun c => c != '\n')).drop 1
    else cs
  else cs

/-- Is the input exactly a fence followed by whitespace only
(the suffix matched by `/```\s*$/`)? -/
def isFenceWsSuffix (cs : List Char) : Bool :=
  match cs with
  | a :: b :: c :: rest =>
    a == fenceChar && b == fenceChar && c == fenceChar && rest.all isJsWs
  | _ => false

/-- Second step of `sanitizeJsonLike`: `.replace(/```\s*$/, '')` — remove the
leftmost fence whose remaining suffix is whitespace only. -/
def stripTrailingFence (cs : List Char) : List Char :=
  match (List.range cs.length).find? (fun i => isFenceWsSuffix (cs.drop i)) with
  | some i => cs.take i
  | none => cs

/-- Index of the last occurrence of a character (`String.lastIndexOf`). -/
def lastIndexOfChar (cs : List Char) (c : Char) : Option Nat :=
  match cs.reverse.findIdx? (fun x => x == c) with
  | some j => some (cs.length - 1 - j)
  | none => none

/-- `extractBraceChunk`: the substring from the first `{` to the last `}`,
or `null` when absent or ill-ordered. -/
def extractBraceChunk (s : String) : Option String :=
  let cs := s.toList
  match cs.findIdx? (fun c => c == '{'), lastIndexOfChar cs '}' with
  | some first, some last =>
    if last > first then some (String.mk ((cs.drop first).take (last + 1 - first)))
    else none
  | _, _ => none

/-- `.replace(/,(\s*[}\]])/g, '$1')`: drop a comma standing (up to whitespace)
before a closing brace or bracket; scanning resumes after the bracket. -/
def removeTrailingCommasGo : Nat → List Char → List Char
  | 0, cs => cs
  | _ + 1, [] => []
  | fuel + 1, c :: rest =>
    if c == ',' then
      let ws := rest.takeWhile isJsWs
      match rest.drop ws.length with
      | b :: tail =>
        if b == '}' || b == ']' then ws ++ b :: removeTrailingCommasGo fuel tail
        else c :: removeTrailingCommasGo fuel rest
      | [] => c :: removeTrailingCommasGo fuel rest
    else c :: removeTrailingCommasGo fuel rest

/-- Match, after a `,` or `{`, the tail of `([,{]\s*)'([^'\n\r]+?)'\s*:`;
returns the leading whitespace, the quoted key and the input after the `:`. -/
def singleKeyMatch (rest : List Char) : Option (List Char × List Char × List Char) :=
  let ws := rest.takeWhile isJsWs
  match rest.drop ws.length with
  | q :: afterQ =>
    if q == squote then
      let content := afterQ.takeWhile (fun c => c != squote && c != '\n' && c != '\r')
      if content.isEmpty then none
      else
        match afterQ.drop content.length with
        | q2 :: afterQ2 =>
          if q2 == squote then
            let ws2 := afterQ2.takeWhile isJsWs
            match afterQ2.drop ws2.length with
            | ':' :: tail => some (ws, content, tail)
            | _ => none
          else none
        | [] => none
    else none
  | [] => none

/-- `.replace(/([,{]\s*)'([^'\n\r]+?)'\s*:/g, '$1"$2":')`. -/
def quoteSingleKeysGo : Nat → List Char → List Char
  | 0, cs => cs
  | _ + 1, [] => []
  | fuel + 1, c :: rest =>
    if c == ',' || c == '{' then
      match singleKeyMatch rest with
      | some (ws, content, tail) =>
        c :: (ws ++ '"' :: (content ++ '"' :: ':' :: quoteSingleKeysGo fuel tail))
      | none => c :: quoteSingleKeysGo fuel rest
    else c :: quoteSingleKeysGo fuel rest

/-- Match, after a `:`, the tail of `:\s*'([^'\n\r]*?)'`; returns the quoted
value (possibly empty) and the input after the closing quote. -/
def singleValueMatch (rest : List Char) : Option (List Char × List Char) :=
  let ws := rest.takeWhile isJsWs
  match rest.drop ws.length with
  | q :: afterQ =>
    if q == squote then
      let content := afterQ.takeWhile (fun c => c != squote && c != '\n' && c != '\r')
      match afterQ.drop content.length with
      | q2 :: tail => if q2 == squote then some (content, tail) else none
      | [] => none
    else none
  | [] => none

/-- `.replace(/:\s*'([^'\n\r]*?)'/g, ': "$1"')` — note the replacement always
emits a single space after the colon. -/
def quoteSingleValuesGo : Nat → List Char → List Char
  | 0, cs => cs
  | _ + 1, [] => []
  | fuel + 1, c :: rest =>
    if c == ':' then
      match singleValueMatch rest with
      | some (content, tail) =>
        c :: ' ' :: '"' :: (content ++ '"' :: quoteSingleValuesGo fuel tail)
      | none => c :: quoteSingleValuesGo fuel rest
    else c :: quoteSingleValuesGo fuel rest

/-- Character class `[A-Za-z0-9_]` of the bare-key regex. -/
def isWordChar (c : Char) : Bool :=
  c.isAlpha || c.isDigit || c == '_'

/-- Match, after a `,` or `{`, the tail of `([,{]\s*)([A-Za-z0-9_]+)\s*:`. -/
def bareKeyMatch (rest : List Char) : Option (List Char × List Char × List Char) :=
  let ws := rest.takeWhile isJsWs
  let afterWs := rest.drop ws.length
  let word := afterWs.takeWhile isWordChar
  if word.isEmpty then none
  else
    let afterWord := afterWs.drop word.length
    let ws2 := afterWord.takeWhile isJsWs
    match afterWord.drop ws2.length with
    | ':' :: tail => some (ws, word, tail)
    | _ => none

/-- `.replace(/([,{]\s*)([A-Za-z0-9_]+)\s*:/g, '$1"$2":')`. -/
def quoteBareKeysGo : Nat → List Char → List Char
  | 0, cs => cs
  | _ + 1, [] => []
  | fuel + 1, c :: rest =>
    if c == ',' || c == '{' then
      match bareKeyMatch rest with
      | some (ws, word, tail) =>
        c :: (ws ++ '"' :: (word ++ '"' :: ':' :: quoteBareKeysGo fuel tail))
      | none => c :: quoteBareKeysGo fuel rest
    else c :: quoteBareKeysGo fuel rest

/-- `sanitizeJsonLike`: `null` (here `none`) on falsy input, else the chain of
rewrites from the source.  The final source step
`.replace(/\"(https?:[^\"]*?)\"/g, '"$1"')` replaces every match by itself
(the pattern `\"` is just `"`), i.e. it is the identity, and is therefore
omitted from the chain. -/
def sanitizeJsonLike (text : String) : Option String :=
  if text == "" then none
  else
    let cs := (jsTrim text).toList
    let cs := stripLeadingFence cs
    let cs := stripTrailingFence cs
    let s := String.mk cs
    let s :=
      match extractBraceChunk s with
      | some chunk => chunk
      | none => s
    let cs := s.toList
    let cs := removeTrailingCommasGo cs.length cs
    let cs := quoteSingleKeysGo cs.length cs
    let cs := quoteSingleValuesGo cs.length cs
    let cs := quoteBareKeysGo cs.length cs
    some (String.mk cs)

/-- Consume the regex tail `\s*\n` (with greedy backtracking this eats the
maximal whitespace run up to and including its LAST newline). -/
def consumeWsThenNewline (cs : List Char) : Option (List Char) :=
  let ws := cs.takeWhile isJsWs
  if ws.contains '\n' then
    let k := ws.length - 1 - ((ws.reverse.findIdx? (fun c => c == '\n')).getD 0)
    some (cs.drop (k + 1))
  else none

/-- Consume the regex tail `\s*json\s*\n` (the `json` tag is case-insensitive
because of the `/i` flag). -/
def consumeJsonTag (cs : List Char) : Option (List Char) :=
  let ws := cs.takeWhile isJsWs
  match cs.drop ws.length with
  | j :: s :: o :: n :: rest =>
    if j.toLower == 'j' && s.toLower == 's' && o.toLower == 'o' && n.toLower == 'n' then
      consumeWsThenNewline rest
    else none
  | _ => none

/-- Take the lazy body `[\s\S]*?` up to the earliest closing fence;
`none` when no closing fence exists. -/
def takeUntilFence : Nat → List Char → Option (List Char × List Char)
  | 0, _ => none
  | _ + 1, [] => none
  | fuel + 1, c :: rest =>
    if isFenceAt (c :: rest) then some ([], (c :: rest).drop 3)
    else
      match takeUntilFence fuel rest with
      | some (body, after) => some (c :: body, after)
      | none => none

/-- Try the fenced-block regex at exactly this position. -/
def matchFencedAt (jsonTag : Bool) (cs : List Char) : Option (List Char) :=
  match cs with
  | a :: b :: c :: rest =>
    if a == fenceChar && b == fenceChar && c == fenceChar then
      match (if jsonTag then consumeJsonTag rest else consumeWsThenNewline rest) with
      | some afterHeader =>
        (match takeUntilFence (afterHeader.length + 1) afterHeader with
         | some (body, _) => some body
         | none => none)
      | none => none
    else none
  | _ => none

/-- Leftmost match of the fenced-block regex. -/
def scanFencedGo (jsonTag : Bool) : Nat → List Char → Option (List Char)
  | 0, _ => none
  | fuel + 1, cs =>
    match matchFencedAt jsonTag cs with
    | some body => some body
    | none =>
      match cs with
      | [] => none
      | _ :: rest => scanFencedGo jsonTag fuel rest

def scanFenced (jsonTag : Bool) (s : String) : Option (List Char) :=
  scanFencedGo jsonTag (s.length + 1) s.toList

/-- `extractFencedJson(text, preferJsonTag)`: the json-tagged pattern is tried
first when requested, falling back to the untagged pattern; a match whose
captured body is falsy (empty) yields `null`, else the trimmed body. -/
def extractFencedJson (text : String) (preferJsonTag : Bool) : Option String :=
  let m :=
    match (if preferJsonTag then scanFenced true text else none) with
    | some body => some body
    | none => scanFenced false text
  match m with
  | some body => if body.isEmpty then none else some (jsTrim (String.mk body))
  | none => none

/-- `tryParseWithSanitization`: direct parse, then sanitize-and-parse;
`none` models returning `null`. -/
def tryParseWithSanitization (text : String) : Option Json :=
  match jsonParse text with
  | some v => some v
  | none =>
    match sanitizeJsonLike text with
    | none => none
    | some sanitized =>
      if sanitized == "" then none
      else jsonParse sanitized

/-- The fallback object returned by `parseExtractionResponse` when every
parse step has failed. -/
def extractionFallback : Json :=
  .obj [("fullName", .str "Unknown"), ("email", .str "N/A"), ("phone", .str "N/A"),
        ("currentRole", .str "N/A"), ("experience", .str "N/A"),
        ("education", .str "N/A"), ("skills", .arr []), ("workExperience", .arr []),
        ("projects", .arr []), ("certifications", .arr []), ("languages", .arr []),
        ("summary", .str "Extraction failed")]

/-- The cascade of parse attempts inside the `try` block of
`parseExtractionResponse` (steps 1–4 of the source); `none` means control
reaches the final `throw new Error('No valid JSON found in response')`.
Steps 2 and 3 `return parsed` only when the parsed value is truthy
(`if (parsed)`); step 4 returns whatever `JSON.parse` yields. -/
def parseSteps (text : String) : Option Json :=
  match jsonParse text with
  | some v => some v
  | none =>
    let fencedJson : Option String :=
      match extractFencedJson text true with
      | some s => if s != "" then some s else extractFencedJson text false
      | none => extractFencedJson text false
    let step2 : Option Json :=
      match fencedJson with
      | some fj =>
        if fj != "" then
          match tryParseWithSanitization fj with
          | some parsed => if jsTruthy parsed then some parsed else none
          | none => none
        else none
      | none => none
    match step2 with
    | some v => some v
    | none =>
      let step3 : Option Json :=
        match extractBraceChunk text with
        | some chunk =>
          (match tryParseWithSanitization chunk with
           | some parsed => if jsTruthy parsed then some parsed else none
           | none => none)
        | none => none
      match step3 with
      | some v => some v
      | none =>
        match sanitizeJsonLike text with
        | some sanitized => if sanitized != "" then jsonParse sanitized else none
        | none => none

/-- `parseExtractionResponse` of `pdfExtractionService.js`: the whole cascade
runs inside a `try`; the `catch` logs and returns the fallback object.
(The `typeof response === 'object'` early return cannot fire here because the
response is embedded as a string.) -/
def parseExtractionResponse (response : String) : Except String Json :=
  tryCatch
    (match parseSteps response with
     | some v => pure v
     | none => throw "No valid JSON found in response")
    (fun _ => pure extractionFallback)

/-- `RobustJsonOutputParser.parse` of `aiAnalysisService.js`:
`text.match(/\{[\s\S]*\}/)` is the span from the first `{` to the last `}`
(exactly `extractBraceChunk`), `JSON.parse` of it may throw, and the `catch`
returns the parser's configured fallback value. -/
def robustJsonParse (fallbackValue : Json) (text : String) : Except String Json :=
  tryCatch
    (match extractBraceChunk text with
     | some jsonMatch =>
       (match jsonParse jsonMatch with
        | some v => pure v
        | none => throw "Unexpected token in JSON")
     | none => throw "No valid JSON found in response")
    (fun _ => pure fallbackValue)

/-! ## Claim C5 -/
/-- The model output of spec Scenario C:
`{fullName: 'Jane', skills: ['a','b',]}` (braces and single quotes written as
character escapes). -/
def scenarioCText : String :=
  "\x7bfullName: \x27Jane\x27, skills: [\x27a\x27,\x27b\x27,]\x7d"

/-- What `sanitizeJsonLike` actually produces for Scenario C: the keys get
double-quoted and the trailing comma is removed, but the single-quoted array
elements survive (only values directly after a `:` are converted). -/
def scenarioCSanitized : String :=
  "\x7b\"fullName\": \"Jane\", \"skills\": [\x27a\x27,\x27b\x27]\x7d"

/-! ## Retry executor (`executeWithRetry` of `aiAnalysisService.js`)

The wrapped chain invocation is embedded as `op : Nat → Except E A`, giving the
outcome of each attempt (attempts are numbered from 1 as in the source).  The
result carries the total locally scheduled backoff delay; before retrying
after a failed attempt `k < maxAttempts` the source waits
`Math.pow(2, k - 1) * 1000` ms. -/
/-- The `for (attempt = 1; attempt <= maxAttempts; attempt++)` loop.  The fuel
counts the remaining iterations; when it runs out the loop has ended and the
source throws `lastError` (`none` models the initial `undefined`).  A failure
on the last allowed attempt returns that error directly, which equals throwing
`lastError` right after the loop. -/
def executeWithRetryGo {E A : Type} (op : Nat → Except E A) (maxAttempts : Nat) :
    Nat → Nat → Option E → Nat → Except (Option E) A × Nat
  | 0, _, lastError, delayTotal => (.error lastError, delayTotal)
  | fuel + 1, attempt, _, delayTotal =>
    match op attempt with
    | .ok result => (.ok result, delayTotal)
    | .error e =>
      if attempt < maxAttempts then
        executeWithRetryGo op maxAttempts fuel (attempt + 1) (some e)
          (delayTotal + 2 ^ (attempt - 1) * 1000)
      else (.error (some e), delayTotal)

/-- `executeWithRetry(chain, input, maxAttempts)`; the source defaults
`maxAttempts` to 3. -/
def executeWithRetry {E A : Type} (op : Nat → Except E A) (maxAttempts : Nat) :
    Except (Option E) A × Nat :=
  executeWithRetryGo op maxAttempts maxAttempts 1 none 0

/-- An operation that fails on attempts 1 and 2 and succeeds on attempt 3
(spec Scenario E). -/
def retryScenarioOp : Nat → Except String Nat :=
  fun attempt => if attempt < 3 then .error "network failure" else .ok 7

/-! ## Model gateway (`createChatModel` of `llmFactory.js`) -/
/-- A provider configuration record (all fields as the strings held by the
configuration store). -/
structure ProviderConfig where
  provider : String
  baseUrl : String
  apiKey : String
  model : String
  temperature : String
  deploymentName : String
  apiVersion : String
  instanceName : String

/-- A constructed chat-model client, holding exactly the option fields the
source passes to each provider's constructor.  `F` is the numeric type
produced by the platform's `parseFloat`. -/
inductive ChatModel (F : Type) where
  | chatOpenAI (model : String) (temperature : F) (apiKey : String) (baseUrl : String)
  | chatAnthropic (model : String) (temperature : F) (apiKey : String)
  | chatOllama (baseUrl : String) (model : String) (temperature : F)
  | chatMistralAI (model : String) (apiKey : String)
  | chatCohere (model : String) (apiKey : String)
  | azureChatOpenAI (azureOpenAIApiKey : String) (model : String) (temperature : F)
      (deploymentName : String) (apiVersion : String) (instanceName : String)

/-- `createChatModel(config)`: the `switch` on the provider tag, embedded as a
chain of equality tests in source order.  `parseFloatFn` stands for the
platform builtin `parseFloat`; the claims only concern where it is applied,
never its numeric semantics. -/
def createChatModel {F : Type} (parseFloatFn : String → F) (config : ProviderConfig) :
    Except String (ChatModel F) :=
  if config.provider = "openai" then
    .ok (.chatOpenAI config.model (parseFloatFn config.temperature) config.apiKey config.baseUrl)
  else if config.provider = "anthropic" then
    .ok (.chatAnthropic config.model (parseFloatFn config.temperature) config.apiKey)
  else if config.provider = "ollama" then
    .ok (.chatOllama config.baseUrl config.model (parseFloatFn config.temperature))
  else if config.provider = "mistral" then
    .ok (.chatMistralAI config.model config.apiKey)
  else if config.provider = "cohere" then
    .ok (.chatCohere config.model config.apiKey)
  else if config.provider = "azure" then
    .ok (.azureChatOpenAI config.apiKey config.model (parseFloatFn config.temperature)
      config.deploymentName config.apiVersion config.instanceName)
  else .error ("Unsupported provider: " ++ config.provider)

/-- The temperature option passed to the constructed client, if any. -/
def handleTemperature {F : Type} : ChatModel F → Option F
  | .chatOpenAI _ t _ _ => some t
  | .chatAnthropic _ t _ => some t
  | .chatOllama _ _ t => some t
  | .chatMistralAI _ _ => none
  | .chatCohere _ _ => none
  | .azureChatOpenAI _ _ t _ _ _ => some t

/-! ## Claim C9 -/
/-- A configuration selecting the `mistral` provider. -/
def mistralConfig : ProviderConfig :=
  { provider := "mistral", baseUrl := "http://localhost:11434", apiKey := "key",
    model := "mistral-large", temperature := "0.2", deploymentName := "dep",
    apiVersion := "v1", instanceName := "inst" }

/-- A configuration selecting the `openai` provider. -/
def openaiConfig : ProviderConfig :=
  { provider := "openai", baseUrl := "https://api.openai.com/v1", apiKey := "sk-1",
    model := "gpt-4o", temperature := "0.7", deploymentName := "dep",
    apiVersion := "v1", instanceName := "inst" }

/-! ## Record store (`analysisStorage.js`) and batch controller
    (`startAnalysis` / `stopAnalysis` of `aiAnalysisService.js`)

The store holds the job addressed by the current `analysisId` (`none` models a
missing job record).  `statusWrites` is an instrumentation log of the
`updateAnalysisStatus` calls, in order; it does not influence any behavior.
The clock-dependent record fields written by the store (`id`, the store's own
`analyzedAt`) are environment inputs and are omitted; the store's
`status: 'completed'` default is kept, placed BEFORE the caller's record
fields so that the record's own `status` overrides it under the last-binding
lookup `jsGet`. -/
structure AnalysisJob where
  status : String
  totalRecords : Nat
  processedRecords : Nat
  poolRecords : Nat
  records : List JsObj

structure StoreState where
  job : Option AnalysisJob
  statusWrites : List String

/-- `updateAnalysisStatus(analysisId, status)`: maps over the stored analyses;
a missing job means nothing is written. -/
def updateAnalysisStatus (st : StoreState) (status : String) : StoreState :=
  { job := st.job.map (fun j => { j with status := status }),
    statusWrites := st.statusWrites ++ [status] }

/-- `setAnalysisTotalRecords(analysisId, totalRecords)`: sets
`totalRecords`, `poolRecords := totalRecords` and `processedRecords := 0`. -/
def setAnalysisTotalRecords (st : StoreState) (totalRecords : Nat) : StoreState :=
  { st with
    job := st.job.map (fun j =>
      { j with totalRecords := totalRecords, poolRecords := totalRecords,
               processedRecords := 0 }) }

/-- `addAnalysisRecord(analysisId, record)`: appends
`{id, analyzedAt, status: 'completed', ...record}` to the job's records. -/
def addAnalysisRecord (st : StoreState) (record : JsObj) : StoreState :=
  { st with
    job := st.job.map (fun j =>
      { j with records := j.records ++ [("status", Json.str "completed") :: record] }) }

/-- `incrementProcessedRecords(analysisId)`: `processedRecords + 1` and
`Math.max(0, poolRecords - 1)` (truncated subtraction on `Nat` is exactly the
clamp at 0). -/
def incrementProcessedRecords (st : StoreState) : StoreState :=
  { st with
    job := st.job.map (fun j =>
      { j with processedRecords := j.processedRecords + 1,
               poolRecords := j.poolRecords - 1 }) }

/-- The minimal failed record the controller synthesizes when processing
resume `n` (1-based) throws: `{fullName: "Resume <n>", status: 'failed',
error}`. -/
def failedRecord (n : Nat) (errorMessage : String) : JsObj :=
  [("fullName", Json.str ("Resume " ++ toString n)),
   ("status", Json.str "failed"),
   ("error", Json.str errorMessage)]

/-- The `for (let i = 0; i < totalResumes; i++)` loop of `startAnalysis`.

Each list entry is the outcome of `analyzeResume` for that resume: `.ok r`
yields the analysis record `r`, `.error msg` models a throw caught by the
per-resume `catch`, which appends the minimal failed record instead.  Both
branches then increment the processed count.

`stopDuring = some i` schedules a `stopAnalysis()` call arriving while resume
`i` is in flight: it clears `isProcessing` and writes status `'stopped'`; the
in-flight resume still finishes and is recorded, and the `!this.isProcessing`
check at the top of the next iteration breaks the loop.  The fuel equals the
remaining iterations. -/
def stopArrives (stopDuring : Option Nat) (i : Nat) : Bool :=
  match stopDuring with
  | some s => s == i
  | none => false

def processLoopGo (resumes : List (Except String JsObj)) (stopDuring : Option Nat) :
    Nat → Nat → Bool → StoreState → Bool × StoreState
  | 0, _, isProcessing, st => (isProcessing, st)
  | fuel + 1, i, isProcessing, st =>
    match resumes[i]? with
    | none => (isProcessing, st)
    | some resume =>
      if isProcessing then
        let stopped := stopArrives stopDuring i
        let isProcessing := if stopped then false else isProcessing
        let st := if stopped then updateAnalysisStatus st "stopped" else st
        let st :=
          match resume with
          | .ok analysisResult => incrementProcessedRecords (addAnalysisRecord st analysisResult)
          | .error msg => incrementProcessedRecords (addAnalysisRecord st (failedRecord (i + 1) msg))
        processLoopGo resumes stopDuring fuel (i + 1) isProcessing st
      else (isProcessing, st)

/-- `startAnalysis(analysisId, extractedResumeData)`.

Arguments embed the controller's environment: `isProcessing` is the
single-flight flag at entry; `st0` the record store; `llmConfigFound` whether
`getDefaultConfiguration()` returned a configuration; `modelInit` the outcome
of `createChatModel` (which may throw an unsupported-provider error);
`extractedResumeData` the input list (`none` models `null`), each element
giving its resume's `analyzeResume` outcome; `stopDuring` as in
`processLoopGo`.

Control flow follows the source: the already-running guard throws before the
`try`, every failure inside the `try` is caught, marks the job `failed` and
re-raises, and after the loop — whether it ran to completion or was stopped —
the job is unconditionally marked `completed`. -/
def startAnalysis (isProcessing : Bool) (st0 : StoreState) (llmConfigFound : Bool)
    (modelInit : Except String Unit)
    (extractedResumeData : Option (List (Except String JsObj)))
    (stopDuring : Option Nat) : Except String Unit × StoreState :=
  if isProcessing then (.error "Analysis is already in progress", st0)
  else
    match st0.job with
    | none => (.error "Analysis not found", updateAnalysisStatus st0 "failed")
    | some _ =>
      if llmConfigFound then
        match modelInit with
        | .error e => (.error e, updateAnalysisStatus st0 "failed")
        | .ok _ =>
          match extractedResumeData with
          | none => (.error "No resume data found to process", updateAnalysisStatus st0 "failed")
          | some resumes =>
            if resumes.length = 0 then
              (.error "No resume data found to process", updateAnalysisStatus st0 "failed")
            else
              let st := setAnalysisTotalRecords st0 resumes.length
              let (_, st) := processLoopGo resumes stopDuring resumes.length 0 true st
              (.ok (), updateAnalysisStatus st "completed")
      else
        (.error "No LLM configuration found. Please configure your LLM settings first.",
         updateAnalysisStatus st0 "failed")

/-- The record as it ends up in the store for resume `i` (0-based):
the store's `status: 'completed'` default followed by either the analysis
result or the synthesized failed record. -/
def storedRecord (i : Nat) (outcome : Except String JsObj) : JsObj :=
  ("status", Json.str "completed") ::
    (match outcome with
     | .ok analysisResult => analysisResult
     | .error msg => failedRecord (i + 1) msg)

/-- The records appended by `k` loop iterations starting at index `i`. -/
def segRecords (resumes : List (Except String JsObj)) : Nat → Nat → List JsObj
  | _, 0 => []
  | i, k + 1 =>
    match resumes[i]? with
    | some r => storedRecord i r :: segRecords resumes (i + 1) k
    | none => []

/-! ## Claim C8 -/
/-- The store state after the batch has handled its first `k` resumes
(the loop fuel bounds the number of iterations, so fuel `k` from index 0 is
exactly "after `k` handled resumes"). -/
def afterHandled (resumes : List (Except String JsObj)) (j : AnalysisJob)
    (w : List String) (k : Nat) : StoreState :=
  (processLoopGo resumes none k 0 true
    (setAnalysisTotalRecords { job := some j, statusWrites := w } resumes.length)).2

/-- A fresh job record as created at batch start. -/
def demoJob : AnalysisJob :=
  { status := "processing", totalRecords := 0, processedRecords := 0, poolRecords := 0,
    records := [] }

/-- Two resumes: the first analyzes fine, processing the second throws. -/
def demoResumes : List (Except String JsObj) :=
  [.ok [("fullName", Json.str "Ada")], .error "model unavailable"]

/-! ## Claim C2 -/
/-- Five resumes whose analyses all succeed. -/
def stopScenarioResumes : List (Except String JsObj) :=
  List.replicate 5 (.ok [("fullName", Json.str "Candidate")])

/-! ## Analysis synthesizer (`performFinalAnalysis` of `aiAnalysisService.js`) -/
/-- `error.message` of the caught value (`"undefined"` stands for the
impossible `maxAttempts = 0` case where no error was ever observed). -/
def errMessage : Option String → String
  | some m => m
  | none => "undefined"

/-- `performFinalAnalysis(extractedData, model)`: runs the final-analysis
chain through `executeWithRetry` (the source's default of 3 attempts;
`finalChainAttempts` gives each attempt's outcome) and combines the section
data with the verdict.  On success the source returns
`{...personalInfo, ...educationInfo, ...workExperienceInfo,
...additionalFields, ...analysis, status: 'completed', analyzedAt}`;
on failure the same section spreads with `status: 'failed'`, the error
message and the timestamp.  `now` is the `new Date().toISOString()` clock
input. -/
def performFinalAnalysis
    (personalInfo educationInfo workExperienceInfo additionalFields : JsObj)
    (finalChainAttempts : Nat → Except String JsObj) (now : String) : JsObj :=
  match (executeWithRetry finalChainAttempts 3).1 with
  | .ok analysis =>
    personalInfo ++ educationInfo ++ workExperienceInfo ++ additionalFields ++ analysis ++
      [("status", Json.str "completed"), ("analyzedAt", Json.str now)]
  | .error e =>
    personalInfo ++ educationInfo ++ workExperienceInfo ++ additionalFields ++
      [("status", Json.str "failed"), ("error", Json.str (errMessage e)),
       ("analyzedAt", Json.str now)]

/-- A verdict object as parsed from the final scoring call. -/
def demoVerdict : JsObj := [("overallScore", Json.num 8 0), ("summary", Json.str "strong")]

/-- Extracted personal-info section data. -/
def demoPersonal : JsObj := [("fullName", Json.str "Ada"), ("email", Json.str "ada@lovelace.co")]

/-! ## Contact-field enrichment (`enrichContactFields` / `extractPrimaryEmail`
    of `pdfExtractionService.js`)

The email extractor is embedded in full, including the greedy-backtracking
semantics of the regex `[a-zA-Z0-9._%+\-]+@[a-zA-Z0-9.\-]+\.[a-zA-Z]{2,}`
(first match wins, then lower-cased).  The three URL extractors
(`extractLinkedInUrl`, `extractGitHubUrl`, `extractWebsiteUrl`) funnel their
matches through `normalizeUrl`, which delegates to the platform's WHATWG
`URL` constructor; they are therefore kept as function parameters of the
embedding — the claim constrains when their values are written, never what
they are, so every theorem below quantifies over them. -/
/-- Character class `[a-zA-Z0-9._%+\-]` (the local part of the email regex). -/
def isEmailLocalChar (c : Char) : Bool :=
  c.isAlpha || c.isDigit || c == '.' || c == '_' || c == '%' || c == '+' || c == '-'

/-- Character class `[a-zA-Z0-9.\-]` (the domain part of the email regex). -/
def isEmailDomainChar (c : Char) : Bool :=
  c.isAlpha || c.isDigit || c == '.' || c == '-'

/-- Greedy backtracking over the domain run: the engine shortens the
`[a-zA-Z0-9.\-]+` part from its maximal run until the next character is a
literal `.` followed by at least two letters; the largest such split wins. -/
def emailDomainSplit (dom : List Char) : Option Nat :=
  (List.range dom.length).reverse.find? (fun d =>
    decide (1 ≤ d) && (dom[d]? == some '.') &&
      decide (2 ≤ ((dom.drop (d + 1)).takeWhile Char.isAlpha).length))

/-- Attempt the email regex at exactly this position: maximal run of local
characters, a literal `@`, then the backtracking domain split; the trailing
`[a-zA-Z]{2,}` takes its maximal run of letters. -/
def emailMatchAt (cs : List Char) : Option (List Char) :=
  if (cs.takeWhile isEmailLocalChar).isEmpty then none
  else
    match cs.drop (cs.takeWhile isEmailLocalChar).length with
    | '@' :: afterAt =>
      (match emailDomainSplit (afterAt.takeWhile isEmailDomainChar) with
       | some d =>
         some (cs.takeWhile isEmailLocalChar ++ '@' ::
           ((afterAt.takeWhile isEmailDomainChar).take d ++ '.' ::
             ((afterAt.takeWhile isEmailDomainChar).drop (d + 1)).takeWhile Char.isAlpha))
       | none => none)
    | _ => none

/-- Leftmost email match: the regex engine retries at each position. -/
def firstEmailGo : Nat → List Char → Option (List Char)
  | 0, _ => none
  | fuel + 1, cs =>
    match emailMatchAt cs with
    | some m => some m
    | none =>
      match cs with
      | [] => none
      | _ :: rest => firstEmailGo fuel rest

/-- `extractPrimaryEmail(text)`: `null` on falsy input or no match, else the
first match lower-cased (`matches[0].toLowerCase()`). -/
def extractPrimaryEmail (text : String) : Option String :=
  if text == "" then none
  else
    match firstEmailGo (text.length + 1) text.toList with
    | some m => some (String.mk (m.map Char.toLower))
    | none => none

/-- Does the value compare `=== 'N/A'`? -/
def isStrNA : Option Json → Bool
  | some (.str s) => s == "N/A"
  | _ => false

/-- JavaScript `a || b`: the left value when truthy, else the right. -/
def jsOrValue (a : Option Json) (b : Json) : Json :=
  match a with
  | some v => if jsTruthy v then v else b
  | none => b

/-- One line of `enrichContactFields`:
`if (!result[key] || result[key] === 'N/A')
   result[key] = extracted || result[key] || 'N/A'`. -/
def fillContactField (result : JsObj) (key : String) (extracted : Option String) : JsObj :=
  if jsonTruthyOpt (jsGet result key) && !(isStrNA (jsGet result key)) then result
  else
    jsSet result key
      (jsOrValue (extracted.map Json.str) (jsOrValue (jsGet result key) (Json.str "N/A")))

/-- `enrichContactFields(data, text)`: copies the structured data and fills
each of the four contact fields from the raw text. -/
def enrichContactFields
    (extractLinkedInUrlFn extractGitHubUrlFn extractWebsiteUrlFn : String → Option String)
    (data : JsObj) (text : String) : JsObj :=
  let result := data
  let email := extractPrimaryEmail text
  let linkedin := extractLinkedInUrlFn text
  let github := extractGitHubUrlFn text
  let website := extractWebsiteUrlFn text
  let result := fillContactField result "email" email
  let result := fillContactField result "linkedin" linkedin
  let result := fillContactField result "github" github
  let result := fillContactField result "website" website
  result

/-- Structured data as an LLM might return it: a real LinkedIn URL, an
`'N/A'` email, no github/website keys. -/
def demoContactData : JsObj :=
  [("fullName", Json.str "Ada"), ("email", Json.str "N/A"),
   ("linkedin", Json.str "https://www.linkedin.com/in/ada"), ("phone", Json.str "123")]

/-- Raw resume text containing two email addresses. -/
def demoContactText : String := "Reach me at Ada.Lovelace@Example.COM or ada@backup.org"

/-! ## Claim C1 -/
/-- C1: for every raw model-output text, the response normalizer
(`parseExtractionResponse` and `RobustJsonOutputParser.parse`) never throws and
always returns a value — the parsed object when a parse step succeeds, the
fallback value otherwise. -/
theorem c1_normalizer_never_throws (response : String) (fallbackValue : Json) (text : String) :
    parseExtractionResponse response = .ok ((parseSteps response).getD extractionFallback) ∧
    robustJsonParse fallbackValue text =
      .ok (((extractBraceChunk text).bind jsonParse).getD fallbackValue) := by
  constructor
  · unfold parseExtractionResponse
    cases h : parseSteps response <;> rfl
  · unfold robustJsonParse
    cases hb : extractBraceChunk text
    · rfl
    · rename_i chunk
      show (tryCatch
          (match jsonParse chunk with
           | some v => pure v
           | none => throw "Unexpected token in JSON")
          (fun _ => pure fallbackValue) : Except String Json) =
        .ok ((jsonParse chunk).getD fallbackValue)
      cases hj : jsonParse chunk <;> rfl

/-- C5 counterexample: the step-4 sanitizer applied to the Scenario C text does
NOT yield valid JSON — `JSON.parse` of the sanitized text throws, so its parse
cannot equal `{"fullName":"Jane","skills":["a","b"]}`. -/
theorem c5_counterexample : (sanitizeJsonLike scenarioCText).bind jsonParse = none := by
  rfl

/-- C5 amended: the step-4 sanitizer applied to the Scenario C text yields
`{"fullName": "Jane", "skills": ['a','b']}`, which still contains single-quoted
array elements, is not valid JSON, and therefore makes the full normalizer
return the fallback object. -/
theorem c5_amended_sanitizer_output :
    sanitizeJsonLike scenarioCText = some scenarioCSanitized ∧
    jsonParse scenarioCSanitized = none ∧
    parseExtractionResponse scenarioCText = .ok extractionFallback := by
  exact ⟨rfl, rfl, rfl⟩

theorem executeWithRetryGo_success {E A : Type} (op : Nat → Except E A) (maxAttempts j : Nat)
    (v : A) (hj : j ≤ maxAttempts) :
    ∀ fuel a le d, 1 ≤ a → a ≤ j → j - a < fuel →
      (∀ k, 1 ≤ k → k < j → (op k).isOk = false) → op j = .ok v →
      executeWithRetryGo op maxAttempts fuel a le d =
        (.ok v, d + (2 ^ (j - 1) - 2 ^ (a - 1)) * 1000) := by
  intro fuel
  induction fuel with
  | zero =>
    intro a le d h1 haj hfa _ _
    omega
  | succ fuel ih =>
    intro a le d h1 haj hfa hfail hok
    by_cases hae : a = j
    · subst hae
      simp only [executeWithRetryGo, hok]
      simp
    · have haj' : a < j := lt_of_le_of_ne haj hae
      have hfa' : (op a).isOk = false := hfail a h1 haj'
      cases hopa : op a with
      | ok w => rw [hopa] at hfa'; simp [Except.isOk, Except.toBool] at hfa'
      | error e =>
        simp only [executeWithRetryGo, hopa]
        have hlt : a < maxAttempts := lt_of_lt_of_le haj' hj
        rw [if_pos hlt]
        rw [ih (a + 1) (some e) (d + 2 ^ (a - 1) * 1000) (by omega) (by omega) (by omega)
            hfail hok]
        have h2 : 2 ^ a = 2 ^ (a - 1) + 2 ^ (a - 1) := by
          have ha' : a - 1 + 1 = a := by omega
          calc 2 ^ a = 2 ^ (a - 1 + 1) := by rw [ha']
            _ = 2 ^ (a - 1) + 2 ^ (a - 1) := by rw [pow_succ]; omega
        have h3 : 2 ^ a ≤ 2 ^ (j - 1) := Nat.pow_le_pow_right (by omega) (by omega)
        have h4 : (a + 1 - 1) = a := by omega
        rw [h4]
        congr 1
        omega

theorem executeWithRetryGo_allfail {E A : Type} (op : Nat → Except E A) (maxAttempts : Nat)
    (f : Nat → E) :
    ∀ fuel a le d, 1 ≤ a → a ≤ maxAttempts → maxAttempts - a < fuel →
      (∀ k, 1 ≤ k → k ≤ maxAttempts → op k = .error (f k)) →
      (executeWithRetryGo op maxAttempts fuel a le d).1 = .error (some (f maxAttempts)) := by
  intro fuel
  induction fuel with
  | zero =>
    intro a le d h1 ha hfa _
    omega
  | succ fuel ih =>
    intro a le d h1 ha hfa hall
    have hopa : op a = .error (f a) := hall a h1 ha
    simp only [executeWithRetryGo, hopa]
    by_cases hlt : a < maxAttempts
    · rw [if_pos hlt]
      exact ih (a + 1) (some (f a)) (d + 2 ^ (a - 1) * 1000) (by omega) (by omega) (by omega) hall
    · rw [if_neg hlt]
      have hae : a = maxAttempts := by omega
      rw [hae]

/-! ## Claim C3 -/
/-- C3: `executeWithRetry` returns the result of the first successful attempt
with total scheduled backoff `(2^(j-1) - 1) * 1000` (i.e. the sum of the
delays `2^(k-1) * 1000` scheduled before each attempt `k + 1` for
`k = 1 .. j - 1`); when all `maxAttempts` attempts fail it throws the last
observed error. -/
theorem c3_executeWithRetry {E A : Type} (op : Nat → Except E A) (maxAttempts j : Nat)
    (v : A) (f : Nat → E) :
    (1 ≤ j → j ≤ maxAttempts → (∀ k, 1 ≤ k → k < j → (op k).isOk = false) →
      op j = .ok v →
      executeWithRetry op maxAttempts = (.ok v, (2 ^ (j - 1) - 1) * 1000)) ∧
    (1 ≤ maxAttempts → (∀ k, 1 ≤ k → k ≤ maxAttempts → op k = .error (f k)) →
      (executeWithRetry op maxAttempts).1 = .error (some (f maxAttempts))) := by
  constructor
  · intro h1 hjm hfail hok
    have h := executeWithRetryGo_success op maxAttempts j v hjm maxAttempts 1 none 0
      le_rfl h1 (by omega) hfail hok
    rw [executeWithRetry, h]
    norm_num
  · intro hmax hall
    exact executeWithRetryGo_allfail op maxAttempts f maxAttempts 1 none 0
      le_rfl hmax (by omega) hall

/-- Witness for C3: with `maxAttempts = 3`, an operation failing twice and
succeeding on the third attempt returns the success result with total
scheduled delay `1000 + 2000`. -/
theorem c3_witness :
    executeWithRetry retryScenarioOp 3 = (.ok 7, 1000 + 2000) := by
  have h := (c3_executeWithRetry retryScenarioOp 3 3 7 (fun _ => "network failure")).1
    (by norm_num) le_rfl
    (by
      intro k hk1 hk3
      unfold retryScenarioOp
      rw [if_pos hk3]
      rfl)
    rfl
  rw [h]
  rfl

/-- C9 counterexample: `mistral` is a supported provider tag, yet the
constructed client receives no temperature at all — the configured temperature
string is never parsed nor passed, refuting the claim that every supported
provider parses the temperature with `parseFloat` before passing it on. -/
theorem c9_counterexample :
    createChatModel (fun s => "parsed:" ++ s) mistralConfig =
        .ok (.chatMistralAI "mistral-large" "key") ∧
    Except.map handleTemperature (createChatModel (fun s => "parsed:" ++ s) mistralConfig) =
        .ok none := by
  exact ⟨rfl, rfl⟩

/-- C9 amended: `createChatModel` returns a model handle for each of the six
supported provider tags and throws an unsupported-provider error for every
other tag; the configured temperature string is parsed (by `parseFloat`) and
passed to the constructed client for `openai`, `anthropic`, `ollama` and
`azure`, while `mistral` and `cohere` receive only the model id and API key
and no temperature. -/
theorem c9_amended {F : Type} (parseFloatFn : String → F) (config : ProviderConfig) :
    (config.provider = "openai" ∨ config.provider = "anthropic" ∨
        config.provider = "ollama" ∨ config.provider = "azure" →
      Except.map handleTemperature (createChatModel parseFloatFn config) =
        .ok (some (parseFloatFn config.temperature))) ∧
    (config.provider = "mistral" ∨ config.provider = "cohere" →
      Except.map handleTemperature (createChatModel parseFloatFn config) = .ok none) ∧
    (config.provider ∉ ["openai", "anthropic", "ollama", "mistral", "cohere", "azure"] →
      createChatModel parseFloatFn config =
        .error ("Unsupported provider: " ++ config.provider)) := by
  refine ⟨?_, ?_, ?_⟩
  · rintro (h | h | h | h) <;> simp [createChatModel, handleTemperature, Except.map, h]
  · rintro (h | h) <;> simp [createChatModel, handleTemperature, Except.map, h]
  · intro h
    simp only [List.mem_cons, List.not_mem_nil, or_false, not_or] at h
    obtain ⟨h1, h2, h3, h4, h5, h6⟩ := h
    simp [createChatModel, h1, h2, h3, h4, h5, h6]

/-- Witness for C9 amended: a supported provider with a parsed temperature, a
supported provider without one, and an unknown provider tag. -/
theorem c9_amended_witness :
    Except.map handleTemperature (createChatModel (fun s => s ++ "!") openaiConfig) =
        .ok (some "0.7!") ∧
    Except.map handleTemperature (createChatModel (fun s => s ++ "!") mistralConfig) =
        .ok none ∧
    createChatModel (fun s => s ++ "!") { openaiConfig with provider := "grok" } =
        .error ("Unsupported provider: " ++ "grok") := by
  refine ⟨?_, ?_, ?_⟩
  · exact (c9_amended (fun s => s ++ "!") openaiConfig).1 (Or.inl rfl)
  · exact (c9_amended (fun s => s ++ "!") mistralConfig).2.1 (Or.inl rfl)
  · exact (c9_amended (fun s => s ++ "!") { openaiConfig with provider := "grok" }).2.2
      (by decide)

/-- Running the loop with no stop request and the flag set: with fuel `fuel`
and current index `i` it performs `min fuel (resumes.length - i)` iterations,
appending the corresponding records and moving each processed resume from the
pool counter to the processed counter. -/
theorem processLoopGo_no_stop (resumes : List (Except String JsObj)) :
    ∀ fuel i j w,
      processLoopGo resumes none fuel i true { job := some j, statusWrites := w } =
        (true,
         { job := some
             { j with
               records := j.records ++ segRecords resumes i (min fuel (resumes.length - i)),
               processedRecords := j.processedRecords + min fuel (resumes.length - i),
               poolRecords := j.poolRecords - min fuel (resumes.length - i) },
           statusWrites := w }) := by
  intro fuel
  induction fuel with
  | zero =>
    intro i j w
    simp [processLoopGo, segRecords]
  | succ fuel ih =>
    intro i j w
    by_cases hi : i < resumes.length
    · have hr : resumes[i]? = some (resumes[i]) := List.getElem?_eq_getElem hi
      have hmin : min (fuel + 1) (resumes.length - i) =
          min fuel (resumes.length - (i + 1)) + 1 := by omega
      have step :
          processLoopGo resumes none (fuel + 1) i true { job := some j, statusWrites := w } =
            processLoopGo resumes none fuel (i + 1) true
              { job := some
                  { j with
                    records := j.records ++ [storedRecord i (resumes[i])],
                    processedRecords := j.processedRecords + 1,
                    poolRecords := j.poolRecords - 1 },
                statusWrites := w } := by
        simp only [processLoopGo, hr]
        cases resumes[i] <;> rfl
      rw [hmin, step, ih (i + 1)]
      have hseg : segRecords resumes i (min fuel (resumes.length - (i + 1)) + 1) =
          storedRecord i (resumes[i]) :: segRecords resumes (i + 1) (min fuel (resumes.length - (i + 1))) := by
        simp only [segRecords, hr]
      rw [hseg]
      simp only [Prod.mk.injEq, StoreState.mk.injEq, Option.some.injEq, AnalysisJob.mk.injEq,
        List.append_assoc, List.singleton_append, true_and, and_true]
      exact ⟨by omega, by omega⟩
    · have hr : resumes[i]? = none := by
        rw [List.getElem?_eq_none]
        omega
      have hmin : min (fuel + 1) (resumes.length - i) = 0 := by omega
      rw [hmin]
      simp [processLoopGo, hr, segRecords]

theorem segRecords_length (resumes : List (Except String JsObj)) :
    ∀ k i, i + k ≤ resumes.length → (segRecords resumes i k).length = k := by
  intro k
  induction k with
  | zero => intro i _; rfl
  | succ k ih =>
    intro i h
    have hi : i < resumes.length := by omega
    have hr : resumes[i]? = some (resumes[i]) := List.getElem?_eq_getElem hi
    simp only [segRecords, hr, List.length_cons]
    rw [ih (i + 1) (by omega)]

theorem segRecords_getElem (resumes : List (Except String JsObj)) :
    ∀ k i t, t < k → i + k ≤ resumes.length →
      (segRecords resumes i k)[t]? =
        (resumes[i + t]?).map (fun r => storedRecord (i + t) r) := by
  intro k
  induction k with
  | zero => intro i t ht _; omega
  | succ k ih =>
    intro i t ht h
    have hi : i < resumes.length := by omega
    have hr : resumes[i]? = some (resumes[i]) := List.getElem?_eq_getElem hi
    simp only [segRecords, hr]
    cases t with
    | zero => simp [hr]
    | succ t =>
      simp only [List.getElem?_cons_succ]
      rw [ih (i + 1) t (by omega) (by omega)]
      have hidx : i + 1 + t = i + (t + 1) := by omega
      rw [hidx]

/-- C8: starting a batch of `N ≥ 1` resumes sets `totalRecords = N`,
`processedRecords = 0`, `poolRecords = N`; after `k` handled resumes
(completed or failed alike) `processedRecords = k`, `poolRecords = N - k`
(truncated subtraction is the clamp at 0) and `k` records have been appended;
each further handled resume adds exactly 1 to `processedRecords` and removes
exactly 1 from `poolRecords`; and `processedRecords` reaches `N` exactly when
all `N` resumes have been handled. -/
theorem c8_progress_counters (resumes : List (Except String JsObj)) (j : AnalysisJob)
    (w : List String) (k : Nat) (hN : 1 ≤ resumes.length) (hk : k ≤ resumes.length) :
    (setAnalysisTotalRecords { job := some j, statusWrites := w } resumes.length).job =
      some { j with totalRecords := resumes.length, poolRecords := resumes.length,
                    processedRecords := 0 } ∧
    (afterHandled resumes j w k).job.map
        (fun jb => (jb.processedRecords, jb.poolRecords, jb.records.length)) =
      some (k, resumes.length - k, j.records.length + k) ∧
    (k < resumes.length →
      (afterHandled resumes j w (k + 1)).job.map
          (fun jb => (jb.processedRecords, jb.poolRecords)) =
        some (k + 1, (resumes.length - k) - 1)) ∧
    ((afterHandled resumes j w k).job.map (fun jb => jb.processedRecords) =
        some resumes.length ↔ k = resumes.length) := by
  have hset : setAnalysisTotalRecords { job := some j, statusWrites := w } resumes.length =
      { job := some { j with totalRecords := resumes.length, poolRecords := resumes.length,
                             processedRecords := 0 },
        statusWrites := w } := rfl
  have hjob : ∀ m, m ≤ resumes.length →
      (afterHandled resumes j w m).job =
        some { j with totalRecords := resumes.length,
                      records := j.records ++ segRecords resumes 0 m,
                      processedRecords := m,
                      poolRecords := resumes.length - m } := by
    intro m hm
    unfold afterHandled
    rw [hset, processLoopGo_no_stop]
    have hmin : min m (resumes.length - 0) = m := by omega
    rw [hmin]
    simp
  refine ⟨rfl, ?_, ?_, ?_⟩
  · rw [hjob k hk]
    have hlen : (segRecords resumes 0 k).length = k := segRecords_length resumes k 0 (by omega)
    simp [hlen]
  · intro hlt
    rw [hjob (k + 1) (by omega)]
    simp
    omega
  · rw [hjob k hk]
    simp

/-! ## Claim C4 -/
/-- C4: when processing one resume throws during the batch loop, the
controller appends the minimal failed record
`{fullName: "Resume <n>", status: 'failed', error}` (stored behind the
store's record defaults), still increments the processed count for it,
continues with the remaining resumes, and the batch ends with job status
`completed` — a single resume's failure never aborts or fails the batch. -/
theorem c4_single_failure_isolated (resumes : List (Except String JsObj)) (j : AnalysisJob)
    (w : List String) (i : Nat) (msg : String) (hne : resumes ≠ [])
    (hrec : j.records = []) (hi : resumes[i]? = some (.error msg)) :
    (startAnalysis false { job := some j, statusWrites := w } true (.ok ())
        (some resumes) none).1 = .ok () ∧
    (startAnalysis false { job := some j, statusWrites := w } true (.ok ())
        (some resumes) none).2.job.map
        (fun jb => (jb.status, jb.processedRecords, jb.records.length)) =
      some ("completed", resumes.length, resumes.length) ∧
    (startAnalysis false { job := some j, statusWrites := w } true (.ok ())
        (some resumes) none).2.job.map (fun jb => jb.records[i]?) =
      some (some (("status", Json.str "completed") :: failedRecord (i + 1) msg)) := by
  have hlen0 : ¬ resumes.length = 0 := by
    intro h
    exact hne (List.length_eq_zero.mp h)
  have hi' : i < resumes.length := by
    by_contra hcon
    rw [List.getElem?_eq_none (by omega)] at hi
    exact Option.noConfusion hi
  have hset : setAnalysisTotalRecords { job := some j, statusWrites := w } resumes.length =
      { job := some { j with totalRecords := resumes.length, poolRecords := resumes.length,
                             processedRecords := 0 },
        statusWrites := w } := rfl
  have hstart : startAnalysis false { job := some j, statusWrites := w } true (.ok ())
      (some resumes) none =
      (.ok (), updateAnalysisStatus
        (processLoopGo resumes none resumes.length 0 true
          (setAnalysisTotalRecords { job := some j, statusWrites := w } resumes.length)).2
        "completed") := by
    simp [startAnalysis, hlen0]
  rw [hstart, hset, processLoopGo_no_stop]
  have hmin : min resumes.length (resumes.length - 0) = resumes.length := by omega
  rw [hmin]
  have hsegl : (segRecords resumes 0 resumes.length).length = resumes.length :=
    segRecords_length resumes resumes.length 0 (by omega)
  have hsegi : (segRecords resumes 0 resumes.length)[i]? =
      some (storedRecord i (.error msg)) := by
    rw [segRecords_getElem resumes resumes.length 0 i hi' (by omega)]
    simp [hi]
  refine ⟨rfl, ?_, ?_⟩
  · simp [updateAnalysisStatus, hrec, hsegl]
  · simp [updateAnalysisStatus, hrec, hsegi, storedRecord]

/-- Witness for C4: in a concrete two-resume batch whose second resume throws,
the stored record at index 1 is the minimal failed record. -/
theorem c4_witness :
    (startAnalysis false { job := some demoJob, statusWrites := [] } true (.ok ())
        (some demoResumes) none).2.job.map (fun jb => jb.records[1]?) =
      some (some (("status", Json.str "completed") :: failedRecord 2 "model unavailable")) :=
  (c4_single_failure_isolated demoResumes demoJob [] 1 "model unavailable"
    (List.cons_ne_nil _ _) rfl rfl).2.2

/-- Witness for C8: after 1 handled resume of the same two-resume batch the
counters read `processedRecords = 1`, `poolRecords = 1`, one record stored. -/
theorem c8_witness :
    (afterHandled demoResumes demoJob [] 1).job.map
        (fun jb => (jb.processedRecords, jb.poolRecords, jb.records.length)) =
      some (1, 1, 1) :=
  (c8_progress_counters demoResumes demoJob [] 1 (by decide) (by decide)).2.1

/-! ## Claim C6 -/
/-- C6: `startAnalysis` throws `'Analysis is already in progress'` before the
`try` when a batch is active, leaving the store untouched; otherwise a missing
job record, a missing provider configuration, or a `null`/empty resume list
each throw before the loop, mark the job `failed` (via the store's
`updateAnalysisStatus`) and re-raise to the caller. -/
theorem c6_preflight_failures (st0 : StoreState) (llmConfigFound : Bool)
    (modelInit : Except String Unit) (data : Option (List (Except String JsObj)))
    (stopDuring : Option Nat) (j : AnalysisJob) :
    startAnalysis true st0 llmConfigFound modelInit data stopDuring =
        (.error "Analysis is already in progress", st0) ∧
    (st0.job = none →
      startAnalysis false st0 llmConfigFound modelInit data stopDuring =
        (.error "Analysis not found", updateAnalysisStatus st0 "failed")) ∧
    (st0.job = some j →
      startAnalysis false st0 false modelInit data stopDuring =
        (.error "No LLM configuration found. Please configure your LLM settings first.",
         updateAnalysisStatus st0 "failed")) ∧
    (st0.job = some j → data = none ∨ data = some [] →
      startAnalysis false st0 true (.ok ()) data stopDuring =
        (.error "No resume data found to process", updateAnalysisStatus st0 "failed")) := by
  refine ⟨rfl, ?_, ?_, ?_⟩
  · intro h
    simp [startAnalysis, h]
  · intro h
    simp [startAnalysis, h]
  · intro h hd
    cases hd with
    | inl hd => subst hd; simp [startAnalysis, h]
    | inr hd => subst hd; simp [startAnalysis, h]

/-- Witness for C6: the four pre-loop failures at concrete inputs. -/
theorem c6_witness :
    startAnalysis true { job := some demoJob, statusWrites := [] } true (.ok ())
        (some demoResumes) none =
      (.error "Analysis is already in progress", { job := some demoJob, statusWrites := [] }) ∧
    startAnalysis false { job := none, statusWrites := [] } true (.ok ())
        (some demoResumes) none =
      (.error "Analysis not found",
       updateAnalysisStatus { job := none, statusWrites := [] } "failed") ∧
    startAnalysis false { job := some demoJob, statusWrites := [] } false (.ok ())
        (some demoResumes) none =
      (.error "No LLM configuration found. Please configure your LLM settings first.",
       updateAnalysisStatus { job := some demoJob, statusWrites := [] } "failed") ∧
    startAnalysis false { job := some demoJob, statusWrites := [] } true (.ok ())
        (some []) none =
      (.error "No resume data found to process",
       updateAnalysisStatus { job := some demoJob, statusWrites := [] } "failed") := by
  refine ⟨?_, ?_, ?_, ?_⟩
  · exact (c6_preflight_failures { job := some demoJob, statusWrites := [] } true (.ok ())
      (some demoResumes) none demoJob).1
  · exact (c6_preflight_failures { job := none, statusWrites := [] } true (.ok ())
      (some demoResumes) none demoJob).2.1 rfl
  · exact (c6_preflight_failures { job := some demoJob, statusWrites := [] } false (.ok ())
      (some demoResumes) none demoJob).2.2.1 rfl
  · exact (c6_preflight_failures { job := some demoJob, statusWrites := [] } true (.ok ())
      (some []) none demoJob).2.2.2 rfl (Or.inr rfl)

/-- C2 (code bug): `stop()` arriving while resume 2 of 5 is in flight lets the
in-flight resume finish and be recorded, prevents resumes 3–5 from starting
(`poolRecords` stays 3), and writes status `'stopped'` — but the unconditional
`updateAnalysisStatus(analysisId, 'completed')` after the loop then overwrites
it, so the job's FINAL status is `'completed'`, not `'stopped'` as the claim
(and the evident intent of `stopAnalysis`) requires.  The status-write log
`["stopped", "completed"]` exhibits the overwrite. -/
theorem c2_stop_status_overwritten :
    startAnalysis false { job := some demoJob, statusWrites := [] } true (.ok ())
        (some stopScenarioResumes) (some 1) =
      (.ok (),
       { job := some
           { status := "completed", totalRecords := 5, processedRecords := 2, poolRecords := 3,
             records :=
               [[("status", Json.str "completed"), ("fullName", Json.str "Candidate")],
                [("status", Json.str "completed"), ("fullName", Json.str "Candidate")]] },
         statusWrites := ["stopped", "completed"] }) := by
  rfl

/-! ## Object-lookup lemmas for the spread model -/
theorem jsGet_nil (k : String) : jsGet [] k = none := rfl

theorem jsGet_cons (k' : String) (v : Json) (rest : JsObj) (k : String) :
    jsGet ((k', v) :: rest) k =
      match jsGet rest k with
      | some w => some w
      | none => if k' = k then some v else none := rfl

/-- Lookup across an append: the later object's bindings win, exactly the
semantics of the JavaScript spread `\x7b...a, ...b\x7d`. -/
theorem jsGet_append (a b : JsObj) (k : String) :
    jsGet (a ++ b) k =
      match jsGet b k with
      | some w => some w
      | none => jsGet a k := by
  induction a with
  | nil =>
    show jsGet b k = match jsGet b k with
      | some w => some w
      | none => jsGet [] k
    cases jsGet b k <;> rfl
  | cons p rest ih =>
    cases p with
    | mk k' v =>
      rw [List.cons_append, jsGet_cons, ih, jsGet_cons]
      cases jsGet b k with
      | some w => rfl
      | none => cases jsGet rest k <;> rfl

/-! ## Claim C7 -/
/-- C7: on success `performFinalAnalysis` returns the union of the four
sections plus the parsed verdict fields (verdict overriding sections on
key collisions) with `status: 'completed'` and the ISO timestamp; on failure
after retry exhaustion it returns the same union of section data with
`status: 'failed'`, the error message and the timestamp, the verdict fields
omitted — already-extracted section data is never discarded. -/
theorem c7_final_analysis
    (personalInfo educationInfo workExperienceInfo additionalFields analysis : JsObj)
    (op : Nat → Except String JsObj) (now : String) (e : Option String) (k : String) :
    ((executeWithRetry op 3).1 = .ok analysis →
      jsGet (performFinalAnalysis personalInfo educationInfo workExperienceInfo
          additionalFields op now) "status" = some (.str "completed") ∧
      jsGet (performFinalAnalysis personalInfo educationInfo workExperienceInfo
          additionalFields op now) "analyzedAt" = some (.str now) ∧
      (k ≠ "status" → k ≠ "analyzedAt" →
        jsGet (performFinalAnalysis personalInfo educationInfo workExperienceInfo
            additionalFields op now) k =
          match jsGet analysis k with
          | some w => some w
          | none => jsGet (personalInfo ++ educationInfo ++ workExperienceInfo ++
              additionalFields) k)) ∧
    ((executeWithRetry op 3).1 = .error e →
      jsGet (performFinalAnalysis personalInfo educationInfo workExperienceInfo
          additionalFields op now) "status" = some (.str "failed") ∧
      jsGet (performFinalAnalysis personalInfo educationInfo workExperienceInfo
          additionalFields op now) "error" = some (.str (errMessage e)) ∧
      jsGet (performFinalAnalysis personalInfo educationInfo workExperienceInfo
          additionalFields op now) "analyzedAt" = some (.str now) ∧
      (k ≠ "status" → k ≠ "error" → k ≠ "analyzedAt" →
        jsGet (performFinalAnalysis personalInfo educationInfo workExperienceInfo
            additionalFields op now) k =
          jsGet (personalInfo ++ educationInfo ++ workExperienceInfo ++
            additionalFields) k)) := by
  constructor
  · intro hok
    unfold performFinalAnalysis
    rw [hok]
    refine ⟨?_, ?_, ?_⟩
    · simp only [jsGet_append]
      rfl
    · simp only [jsGet_append]
      rfl
    · intro hks hka
      have hL : jsGet [("status", Json.str "completed"), ("analyzedAt", Json.str now)] k =
          none := by
        simp [jsGet_cons, jsGet_nil, Ne.symm hks, Ne.symm hka]
      simp only [jsGet_append, hL]
  · intro herr
    unfold performFinalAnalysis
    rw [herr]
    refine ⟨?_, ?_, ?_, ?_⟩
    · simp only [jsGet_append]
      rfl
    · simp only [jsGet_append]
      rfl
    · simp only [jsGet_append]
      rfl
    · intro hks hke hka
      have hL : jsGet [("status", Json.str "failed"), ("error", Json.str (errMessage e)),
          ("analyzedAt", Json.str now)] k = none := by
        simp [jsGet_cons, jsGet_nil, Ne.symm hks, Ne.symm hke, Ne.symm hka]
      simp only [jsGet_append, hL]

/-- Witness for C7: a concrete success and a concrete failure of the final
scoring call over the same section data. -/
theorem c7_witness :
    jsGet (performFinalAnalysis demoPersonal [] [] [] (fun _ => .ok demoVerdict) "2024-01-01")
        "status" = some (.str "completed") ∧
    jsGet (performFinalAnalysis demoPersonal [] [] [] (fun _ => .ok demoVerdict) "2024-01-01")
        "overallScore" = some (.num 8 0) ∧
    jsGet (performFinalAnalysis demoPersonal [] [] [] (fun _ => .error "timeout") "2024-01-01")
        "status" = some (.str "failed") ∧
    jsGet (performFinalAnalysis demoPersonal [] [] [] (fun _ => .error "timeout") "2024-01-01")
        "error" = some (.str "timeout") ∧
    jsGet (performFinalAnalysis demoPersonal [] [] [] (fun _ => .error "timeout") "2024-01-01")
        "email" = some (.str "ada@lovelace.co") := by
  refine ⟨?_, ?_, ?_, ?_, ?_⟩
  · exact ((c7_final_analysis demoPersonal [] [] [] demoVerdict (fun _ => .ok demoVerdict)
      "2024-01-01" none "overallScore").1 rfl).1
  · exact (((c7_final_analysis demoPersonal [] [] [] demoVerdict (fun _ => .ok demoVerdict)
      "2024-01-01" none "overallScore").1 rfl).2.2 (by decide) (by decide)).trans rfl
  · exact ((c7_final_analysis demoPersonal [] [] [] demoVerdict (fun _ => .error "timeout")
      "2024-01-01" (some "timeout") "email").2 rfl).1
  · exact ((c7_final_analysis demoPersonal [] [] [] demoVerdict (fun _ => .error "timeout")
      "2024-01-01" (some "timeout") "email").2 rfl).2.1
  · exact (((c7_final_analysis demoPersonal [] [] [] demoVerdict (fun _ => .error "timeout")
      "2024-01-01" (some "timeout") "email").2 rfl).2.2.2 (by decide) (by decide)
      (by decide)).trans rfl

theorem jsGet_jsSet_self (o : JsObj) (k : String) (v : Json) :
    jsGet (jsSet o k v) k = some v := by
  rw [jsSet, jsGet_append, jsGet_cons, jsGet_nil]
  simp

theorem jsGet_jsSet_other (o : JsObj) (k : String) (v : Json) (k' : String) (h : k ≠ k') :
    jsGet (jsSet o k v) k' = jsGet o k' := by
  rw [jsSet, jsGet_append, jsGet_cons, jsGet_nil]
  simp [h]

theorem fillContactField_get_other (o : JsObj) (key : String) (e : Option String)
    (k : String) (h : key ≠ k) :
    jsGet (fillContactField o key e) k = jsGet o k := by
  unfold fillContactField
  by_cases hc : (jsonTruthyOpt (jsGet o key) && !(isStrNA (jsGet o key))) = true
  · rw [if_pos hc]
  · rw [if_neg hc]
    exact jsGet_jsSet_other o key _ k h

theorem fillContactField_skip (o : JsObj) (key : String) (e : Option String) (s : String)
    (hv : jsGet o key = some (.str s)) (hne : s ≠ "") (hna : s ≠ "N/A") :
    fillContactField o key e = o := by
  unfold fillContactField
  rw [if_pos]
  rw [hv]
  simp only [jsonTruthyOpt, jsTruthy, isStrNA, Bool.and_eq_true, bne_iff_ne, ne_eq,
    Bool.not_eq_true', beq_eq_false_iff_ne]
  exact ⟨hne, hna⟩

theorem fillContactField_set (o : JsObj) (key : String) (e : Option String)
    (hv : jsGet o key = none ∨ jsGet o key = some (.str "") ∨ jsGet o key = some (.str "N/A")) :
    jsGet (fillContactField o key e) key =
      some (jsOrValue (e.map Json.str) (jsOrValue (jsGet o key) (Json.str "N/A"))) := by
  unfold fillContactField
  rw [if_neg]
  · exact jsGet_jsSet_self o key _
  · rcases hv with hv | hv | hv <;> rw [hv] <;> simp [jsonTruthyOpt, jsTruthy, isStrNA]

theorem emailMatchAt_ne_nil (cs : List Char) (m : List Char)
    (h : emailMatchAt cs = some m) : m ≠ [] := by
  unfold emailMatchAt at h
  split at h
  · exact Option.noConfusion h
  · split at h
    · split at h
      · injection h with h'
        subst h'
        simp
      · exact Option.noConfusion h
    · exact Option.noConfusion h

theorem firstEmailGo_succ (fuel : Nat) (cs : List Char) :
    firstEmailGo (fuel + 1) cs =
      match emailMatchAt cs with
      | some mm => some mm
      | none =>
        match cs with
        | [] => none
        | _ :: rest => firstEmailGo fuel rest := rfl

theorem firstEmailGo_ne_nil :
    ∀ fuel cs m, firstEmailGo fuel cs = some m → m ≠ [] := by
  intro fuel
  induction fuel with
  | zero =>
    intro cs m h
    exact Option.noConfusion h
  | succ fuel ih =>
    intro cs m h
    rw [firstEmailGo_succ] at h
    cases hm : emailMatchAt cs with
    | some mm =>
      rw [hm] at h
      injection h with h'
      subst h'
      exact emailMatchAt_ne_nil cs mm hm
    | none =>
      rw [hm] at h
      cases cs with
      | nil => exact Option.noConfusion h
      | cons c rest => exact ih rest m h

theorem extractPrimaryEmail_ne_empty (text : String) (s : String)
    (h : extractPrimaryEmail text = some s) : s ≠ "" := by
  unfold extractPrimaryEmail at h
  by_cases ht : (text == "") = true
  · rw [if_pos ht] at h
    exact Option.noConfusion h
  · rw [if_neg ht] at h
    cases hm : firstEmailGo (text.length + 1) text.toList with
    | none =>
      rw [hm] at h
      exact Option.noConfusion h
    | some m =>
      rw [hm] at h
      injection h with h'
      subst h'
      have hmne : m ≠ [] := firstEmailGo_ne_nil _ _ _ hm
      intro hcon
      have hdata : m.map Char.toLower = [] := by
        have := congrArg String.data hcon
        simpa using this
      exact hmne (List.map_eq_nil_iff.mp hdata)

/-! ## Claim C10 -/
/-- C10: contact-field enrichment fills `email`, `linkedin`, `github` and
`website` from the raw resume text only when the LLM-provided value is absent
(missing or empty, i.e. falsy) or `'N/A'`; every truthy non-`'N/A'` provided
value and every other field of the structured data is left unchanged; the
email filled in is the first regex match in the text, lower-cased (and `'N/A'`
when the text has no match). -/
theorem c10_contact_enrichment
    (extractLinkedInUrlFn extractGitHubUrlFn extractWebsiteUrlFn : String → Option String)
    (data : JsObj) (text : String) (key : String) (s u : String) :
    (key = "email" ∨ key = "linkedin" ∨ key = "github" ∨ key = "website" →
      jsGet data key = some (.str s) → s ≠ "" → s ≠ "N/A" →
      jsGet (enrichContactFields extractLinkedInUrlFn extractGitHubUrlFn extractWebsiteUrlFn
        data text) key = some (.str s)) ∧
    (key ≠ "email" → key ≠ "linkedin" → key ≠ "github" → key ≠ "website" →
      jsGet (enrichContactFields extractLinkedInUrlFn extractGitHubUrlFn extractWebsiteUrlFn
        data text) key = jsGet data key) ∧
    ((jsGet data "email" = none ∨ jsGet data "email" = some (.str "") ∨
        jsGet data "email" = some (.str "N/A")) →
      jsGet (enrichContactFields extractLinkedInUrlFn extractGitHubUrlFn extractWebsiteUrlFn
        data text) "email" = some (.str ((extractPrimaryEmail text).getD "N/A"))) ∧
    ((jsGet data "linkedin" = none ∨ jsGet data "linkedin" = some (.str "") ∨
        jsGet data "linkedin" = some (.str "N/A")) →
      extractLinkedInUrlFn text = some u → u ≠ "" →
      jsGet (enrichContactFields extractLinkedInUrlFn extractGitHubUrlFn extractWebsiteUrlFn
        data text) "linkedin" = some (.str u)) ∧
    ((jsGet data "github" = none ∨ jsGet data "github" = some (.str "") ∨
        jsGet data "github" = some (.str "N/A")) →
      extractGitHubUrlFn text = some u → u ≠ "" →
      jsGet (enrichContactFields extractLinkedInUrlFn extractGitHubUrlFn extractWebsiteUrlFn
        data text) "github" = some (.str u)) ∧
    ((jsGet data "website" = none ∨ jsGet data "website" = some (.str "") ∨
        jsGet data "website" = some (.str "N/A")) →
      extractWebsiteUrlFn text = some u → u ≠ "" →
      jsGet (enrichContactFields extractLinkedInUrlFn extractGitHubUrlFn extractWebsiteUrlFn
        data text) "website" = some (.str u)) := by
  have hE : enrichContactFields extractLinkedInUrlFn extractGitHubUrlFn extractWebsiteUrlFn
      data text =
      fillContactField (fillContactField (fillContactField
        (fillContactField data "email" (extractPrimaryEmail text))
        "linkedin" (extractLinkedInUrlFn text))
        "github" (extractGitHubUrlFn text))
        "website" (extractWebsiteUrlFn text) := rfl
  have hfill : ∀ (o : JsObj) (fk : String) (e : Option String) (uu : String),
      (jsGet o fk = none ∨ jsGet o fk = some (.str "") ∨ jsGet o fk = some (.str "N/A")) →
      e = some uu → uu ≠ "" →
      jsGet (fillContactField o fk e) fk = some (.str uu) := by
    intro o fk e uu hv he hu
    rw [fillContactField_set o fk e hv, he]
    simp only [Option.map_some', jsOrValue]
    rw [if_pos]
    simp only [jsTruthy, bne_iff_ne, ne_eq]
    exact hu
  refine ⟨?_, ?_, ?_, ?_, ?_, ?_⟩
  · rintro (rfl | rfl | rfl | rfl) hv hne hna <;> rw [hE]
    · rw [fillContactField_get_other _ _ _ _ (by decide),
        fillContactField_get_other _ _ _ _ (by decide),
        fillContactField_get_other _ _ _ _ (by decide),
        fillContactField_skip data "email" _ s hv hne hna]
      exact hv
    · rw [fillContactField_get_other _ _ _ _ (by decide),
        fillContactField_get_other _ _ _ _ (by decide),
        fillContactField_skip _ "linkedin" _ s
          ((fillContactField_get_other _ _ _ _ (by decide)).trans hv) hne hna,
        fillContactField_get_other _ _ _ _ (by decide)]
      exact hv
    · rw [fillContactField_get_other _ _ _ _ (by decide),
        fillContactField_skip _ "github" _ s
          (((fillContactField_get_other _ _ _ _ (by decide)).trans
            ((fillContactField_get_other _ _ _ _ (by decide)).trans hv))) hne hna,
        fillContactField_get_other _ _ _ _ (by decide),
        fillContactField_get_other _ _ _ _ (by decide)]
      exact hv
    · rw [fillContactField_skip _ "website" _ s
          ((fillContactField_get_other _ _ _ _ (by decide)).trans
            ((fillContactField_get_other _ _ _ _ (by decide)).trans
              ((fillContactField_get_other _ _ _ _ (by decide)).trans hv))) hne hna,
        fillContactField_get_other _ _ _ _ (by decide),
        fillContactField_get_other _ _ _ _ (by decide),
        fillContactField_get_other _ _ _ _ (by decide)]
      exact hv
  · intro h1 h2 h3 h4
    rw [hE, fillContactField_get_other _ _ _ _ (Ne.symm h4),
      fillContactField_get_other _ _ _ _ (Ne.symm h3),
      fillContactField_get_other _ _ _ _ (Ne.symm h2),
      fillContactField_get_other _ _ _ _ (Ne.symm h1)]
  · intro hv
    rw [hE, fillContactField_get_other _ _ _ _ (by decide),
      fillContactField_get_other _ _ _ _ (by decide),
      fillContactField_get_other _ _ _ _ (by decide),
      fillContactField_set data "email" _ hv]
    cases hep : extractPrimaryEmail text with
    | some em =>
      have hemne : em ≠ "" := extractPrimaryEmail_ne_empty text em hep
      simp only [Option.map_some', jsOrValue, Option.getD]
      rw [if_pos]
      simp only [jsTruthy, bne_iff_ne, ne_eq]
      exact hemne
    | none =>
      simp only [Option.map_none', jsOrValue, Option.getD]
      rcases hv with hv | hv | hv <;> rw [hv] <;> simp [jsTruthy]
  · intro hv he hu
    have hv1 : jsGet (fillContactField data "email" (extractPrimaryEmail text)) "linkedin" =
          none ∨
        jsGet (fillContactField data "email" (extractPrimaryEmail text)) "linkedin" =
          some (.str "") ∨
        jsGet (fillContactField data "email" (extractPrimaryEmail text)) "linkedin" =
          some (.str "N/A") := by
      rw [fillContactField_get_other _ _ _ _ (by decide)]
      exact hv
    rw [hE, fillContactField_get_other _ _ _ _ (by decide),
      fillContactField_get_other _ _ _ _ (by decide)]
    exact hfill _ "linkedin" _ u hv1 he hu
  · intro hv he hu
    have hv1 : jsGet (fillContactField (fillContactField data "email"
          (extractPrimaryEmail text)) "linkedin" (extractLinkedInUrlFn text)) "github" = none ∨
        jsGet (fillContactField (fillContactField data "email"
          (extractPrimaryEmail text)) "linkedin" (extractLinkedInUrlFn text)) "github" =
          some (.str "") ∨
        jsGet (fillContactField (fillContactField data "email"
          (extractPrimaryEmail text)) "linkedin" (extractLinkedInUrlFn text)) "github" =
          some (.str "N/A") := by
      rw [fillContactField_get_other _ _ _ _ (by decide),
        fillContactField_get_other _ _ _ _ (by decide)]
      exact hv
    rw [hE, fillContactField_get_other _ _ _ _ (by decide)]
    exact hfill _ "github" _ u hv1 he hu
  · intro hv he hu
    have hv1 : jsGet (fillContactField (fillContactField (fillContactField data "email"
          (extractPrimaryEmail text)) "linkedin" (extractLinkedInUrlFn text)) "github"
          (extractGitHubUrlFn text)) "website" = none ∨
        jsGet (fillContactField (fillContactField (fillContactField data "email"
          (extractPrimaryEmail text)) "linkedin" (extractLinkedInUrlFn text)) "github"
          (extractGitHubUrlFn text)) "website" = some (.str "") ∨
        jsGet (fillContactField (fillContactField (fillContactField data "email"
          (extractPrimaryEmail text)) "linkedin" (extractLinkedInUrlFn text)) "github"
          (extractGitHubUrlFn text)) "website" = some (.str "N/A") := by
      rw [fillContactField_get_other _ _ _ _ (by decide),
        fillContactField_get_other _ _ _ _ (by decide),
        fillContactField_get_other _ _ _ _ (by decide)]
      exact hv
    rw [hE]
    exact hfill _ "website" _ u hv1 he hu

/-- Witness for C10: the `'N/A'` email is replaced by the first regex match of
the text lower-cased, the provided LinkedIn URL survives, the absent github is
filled from the extractor, and the unrelated `phone` field is untouched. -/
theorem c10_witness :
    jsGet (enrichContactFields (fun _ => some "https://linkedin.com/in/x")
        (fun _ => some "https://github.com/ada") (fun _ => none)
        demoContactData demoContactText) "email" =
      some (.str "ada.lovelace@example.com") ∧
    jsGet (enrichContactFields (fun _ => some "https://linkedin.com/in/x")
        (fun _ => some "https://github.com/ada") (fun _ => none)
        demoContactData demoContactText) "linkedin" =
      some (.str "https://www.linkedin.com/in/ada") ∧
    jsGet (enrichContactFields (fun _ => some "https://linkedin.com/in/x")
        (fun _ => some "https://github.com/ada") (fun _ => none)
        demoContactData demoContactText) "github" =
      some (.str "https://github.com/ada") ∧
    jsGet (enrichContactFields (fun _ => some "https://linkedin.com/in/x")
        (fun _ => some "https://github.com/ada") (fun _ => none)
        demoContactData demoContactText) "phone" = some (.str "123") := by
  refine ⟨?_, ?_, ?_, ?_⟩
  · exact ((c10_contact_enrichment (fun _ => some "https://linkedin.com/in/x")
      (fun _ => some "https://github.com/ada") (fun _ => none) demoContactData
      demoContactText "email" "" "").2.2.1 (Or.inr (Or.inr rfl))).trans rfl
  · exact (c10_contact_enrichment (fun _ => some "https://linkedin.com/in/x")
      (fun _ => some "https://github.com/ada") (fun _ => none) demoContactData
      demoContactText "linkedin" "https://www.linkedin.com/in/ada" "").1
      (Or.inr (Or.inl rfl)) rfl (by decide) (by decide)
  · exact (c10_contact_enrichment (fun _ => some "https://linkedin.com/in/x")
      (fun _ => some "https://github.com/ada") (fun _ => none) demoContactData
      demoContactText "github" "" "https://github.com/ada").2.2.2.2.1
      (Or.inl rfl) rfl (by decide)
  · exact ((c10_contact_enrichment (fun _ => some "https://linkedin.com/in/x")
      (fun _ => some "https://github.com/ada") (fun _ => none) demoContactData
      demoContactText "phone" "" "").2.1 (by decide) (by decide) (by decide)
      (by decide)).trans rfl

end AIResumes
